import Mathlib

/-!
Verification of the metrics-query dispatch layer (`pkg/api/metrics.go`):
the two batch-query entry points `QueryMetricsV2` (current) and
`QueryMetrics` (legacy), their data-source resolution, routing between the
direct and expression paths, and the per-sub-query result aggregation.

External collaborators (the data-source cache, the time-series executor
`tsdb.HandleRequest` and the expression evaluator
`expr.WrapTransformData`) are modelled as oracle functions carried in an
`HTTPServer` record; every call made to a collaborator is recorded in a
trace so that claims about which collaborators run can be stated.
-/

namespace Grafana

/-- Modelled from the spec: the reserved expression-engine sentinel
data-source name (`expr.DatasourceName` lives outside this fragment);
only equality with it matters to the router. -/
def DatasourceName : String := "__expr__"

/-- A resolved data source (`models.DataSource`, opaque here beyond identity). -/
structure DataSource where
  id : Int
deriving DecidableEq, Repr

/-- Classification of data-source resolution failures, mirroring the
`errors.Is` checks against `models.ErrDataSourceAccessDenied` and
`models.ErrDataSourceNotFound`; any other error is `other`. -/
inductive DsError where
  | accessDenied
  | notFound
  | other (msg : String)
deriving DecidableEq, Repr

/-- One raw sub-query: the fields of the `simplejson` parameter bag that
the dispatch layer reads. `MustString ""` on a missing "datasource" field
yields `""`, so that field is a plain `String`; `Int64()` on a missing or
non-integer "datasourceId" errors, so that field is an `Option`. -/
structure RawQuery where
  datasource : String
  datasourceId : Option Int
  refId : Option String
  maxDataPoints : Option Int
  intervalMs : Option Int
  queryType : Option String
deriving DecidableEq, Repr

/-- The inbound batch (`dtos.MetricRequest`). -/
structure MetricRequest where
  timeFrom : String
  timeTo : String
  debug : Bool
  queries : List RawQuery
deriving DecidableEq, Repr

/-- The time range of a batch (`tsdb.NewTimeRange`, kept raw). -/
structure TimeRange where
  timeFrom : String
  timeTo : String
deriving DecidableEq, Repr

def NewTimeRange (f t : String) : TimeRange := ⟨f, t⟩

/-- One normalized sub-query (`tsdb.Query`). -/
structure Query where
  refId : String
  maxDataPoints : Int
  intervalMs : Int
  queryType : String
  model : RawQuery
  dataSource : Option DataSource
deriving DecidableEq, Repr

/-- The dispatched request (`tsdb.TsdbQuery`). -/
structure TsdbQuery where
  timeRange : TimeRange
  debug : Bool
  queries : List Query
deriving DecidableEq, Repr

/-- One per-sub-query result (`tsdb.QueryResult`): its optional error
and the mutable stringified error field. -/
structure QueryResult where
  refId : String
  error : Option String
  errorString : String
deriving DecidableEq, Repr

/-- Modelled from the spec: the backend response envelope
(`tsdb.Response` lives outside this fragment). Per the spec the
per-sub-query results mapping preserves insertion order for stable
rendering, so it is embedded as an ordered list of results. -/
structure TsdbResponse where
  results : List QueryResult
  message : String
deriving DecidableEq, Repr

/-- The collaborators of the handlers: the data-source cache lookup, the
time-series executor, the expression evaluator and the expressions
feature toggle (`hs.Cfg.IsExpressionsEnabled()`). -/
structure HTTPServer where
  getDatasource : Int → Except DsError DataSource
  handleRequest : Option DataSource → TsdbQuery → Except String TsdbResponse
  wrapTransformData : TsdbQuery → Except String TsdbResponse
  exprEnabled : Bool

/-- A recorded collaborator invocation. -/
inductive Call where
  | getDatasource (id : Int)
  | handleRequest (req : TsdbQuery)
  | wrapTransformData (req : TsdbQuery)
deriving DecidableEq, Repr

/-- Whether a recorded call is a data-source resolution. -/
def Call.isResolve : Call → Bool
  | .getDatasource _ => true
  | _ => false

/-- The constructor tag of a recorded call, forgetting its payload. -/
def Call.kind : Call → Nat
  | .getDatasource _ => 0
  | .handleRequest _ => 1
  | .wrapTransformData _ => 2

/-- The handler's outcome: an error envelope (`Error(status, msg, err)`),
a streamed body (`jsonStreaming(status, resp)`, current path) or a
buffered body (`JSON(status, resp)`, legacy path). -/
inductive Response where
  | error (status : Nat) (message : String)
  | jsonStreaming (status : Nat) (resp : TsdbResponse)
  | json (status : Nat) (resp : TsdbResponse)
deriving DecidableEq, Repr

/-- The transport status of a response. -/
def Response.status : Response → Nat
  | .error s _ => s
  | .jsonStreaming s _ => s
  | .json s _ => s

/-- Normalization of one sub-query as done inside `QueryMetricsV2`'s loop:
defaults "A", 100, 1000 and "" applied, the raw bag kept as the model,
and the currently resolved data source attached. -/
def mkQuery (q : RawQuery) (ds : Option DataSource) : Query :=
  { refId := q.refId.getD "A"
    maxDataPoints := q.maxDataPoints.getD 100
    intervalMs := q.intervalMs.getD 1000
    queryType := q.queryType.getD ""
    model := q
    dataSource := ds }

/-- Normalization as done inside legacy `QueryMetrics`'s loop: identical
except that the legacy loop never sets `QueryType` (zero value). -/
def mkLegacyQuery (q : RawQuery) (ds : Option DataSource) : Query :=
  { refId := q.refId.getD "A"
    maxDataPoints := q.maxDataPoints.getD 100
    intervalMs := q.intervalMs.getD 1000
    queryType := ""
    model := q
    dataSource := ds }

/-- Outcome of `QueryMetricsV2`'s per-query loop: either an early return
with a response, or completion with the accumulated `hasExpr` flag, the
(possibly resolved) data source and the normalized queries; both carry
the collaborator calls made inside the loop. -/
inductive LoopOutcome where
  | abort (r : Response) (trace : List Call)
  | done (hasExpr : Bool) (ds : Option DataSource) (queries : List Query) (trace : List Call)
deriving Repr

/-- The body of `QueryMetricsV2`'s `for i, query := range reqDTO.Queries`
loop. At each index the "datasource" name is compared with the sentinel
first, then the "datasourceId" is read (missing id aborts with 400), and
at index 0 of a so-far non-expression batch the data source is resolved,
each failure kind aborting with its own status. -/
def v2Loop (hs : HTTPServer) : Nat → Bool → Option DataSource → List RawQuery → LoopOutcome
  | _, hasExpr, ds, [] => .done hasExpr ds [] []
  | i, hasExpr, ds, q :: rest =>
    let hasExpr1 := if q.datasource = DatasourceName then true else hasExpr
    match q.datasourceId with
    | none => .abort (.error 400 "Query missing data source ID") []
    | some dsid =>
      if i = 0 ∧ hasExpr1 = false then
        match hs.getDatasource dsid with
        | .error .accessDenied =>
            .abort (.error 403 "Access denied to data source") [.getDatasource dsid]
        | .error .notFound =>
            .abort (.error 400 "Invalid data source ID") [.getDatasource dsid]
        | .error (.other _) =>
            .abort (.error 500 "Unable to load data source metadata") [.getDatasource dsid]
        | .ok d =>
          match v2Loop hs (i + 1) hasExpr1 (some d) rest with
          | .abort r tr => .abort r (.getDatasource dsid :: tr)
          | .done he ds2 qs tr =>
              .done he ds2 (mkQuery q (some d) :: qs) (.getDatasource dsid :: tr)
      else
        match v2Loop hs (i + 1) hasExpr1 ds rest with
        | .abort r tr => .abort r tr
        | .done he ds2 qs tr => .done he ds2 (mkQuery q ds :: qs) tr

/-- One iteration of the result-aggregation loop shared by both
handlers, threading (statusCode, envelope message, rebuilt results):
a result carrying a non-nil error has the error stringified into its
`ErrorString` field, overwrites the envelope message and forces the
status to 400. -/
def aggStep (acc : Nat × String × List QueryResult) (res : QueryResult) :
    Nat × String × List QueryResult :=
  match res.error with
  | some e => (400, e, acc.2.2 ++ [{ res with errorString := e }])
  | none => (acc.1, acc.2.1, acc.2.2 ++ [res])

/-- The result-aggregation loop shared by both handlers: `statusCode`
starts at 200 and the loop of `aggStep` runs over the results in order. -/
def aggregate (resp : TsdbResponse) : Nat × TsdbResponse :=
  let final := resp.results.foldl aggStep (200, resp.message, [])
  (final.1, { results := final.2.2, message := final.2.1 })

/-- `QueryMetricsV2` (`POST /api/ds/query`): rejects an empty batch,
runs the per-query loop, then routes to `tsdb.HandleRequest` (direct) or,
behind the feature toggle, `expr.WrapTransformData` (expression), and
aggregates the per-sub-query results into a streamed envelope. -/
def QueryMetricsV2 (hs : HTTPServer) (req : MetricRequest) : Response × List Call :=
  if req.queries.length = 0 then
    (.error 400 "No queries found in query", [])
  else
    match v2Loop hs 0 false none req.queries with
    | .abort r tr => (r, tr)
    | .done hasExpr ds qs tr =>
      let request : TsdbQuery :=
        { timeRange := NewTimeRange req.timeFrom req.timeTo
          debug := req.debug
          queries := qs }
      if hasExpr = false then
        match hs.handleRequest ds request with
        | .error _ => (.error 500 "Metric request error", tr ++ [.handleRequest request])
        | .ok resp =>
          let agg := aggregate resp
          (.jsonStreaming agg.1 agg.2, tr ++ [.handleRequest request])
      else
        if hs.exprEnabled = false then
          (.error 404 "Expressions feature toggle is not enabled", tr)
        else
          match hs.wrapTransformData request with
          | .error _ =>
              (.error 500 "Transform request error", tr ++ [.wrapTransformData request])
          | .ok resp =>
            let agg := aggregate resp
            (.jsonStreaming agg.1 agg.2, tr ++ [.wrapTransformData request])

/-- Legacy `QueryMetrics` (`POST /api/tsdb/query`): rejects an empty
batch, reads the `datasourceId` of the FIRST sub-query only, resolves it
(access-denied → 403, anything else → 500), attaches the resolved source
to every sub-query, invokes `tsdb.HandleRequest` and aggregates into a
buffered envelope. -/
def QueryMetrics (hs : HTTPServer) (req : MetricRequest) : Response × List Call :=
  match req.queries with
  | [] => (.error 400 "No queries found in query", [])
  | q0 :: _ =>
    match q0.datasourceId with
    | none => (.error 400 "Query missing datasourceId", [])
    | some dsid =>
      match hs.getDatasource dsid with
      | .error .accessDenied =>
          (.error 403 "Access denied to datasource", [.getDatasource dsid])
      | .error _ =>
          (.error 500 "Unable to load datasource meta data", [.getDatasource dsid])
      | .ok ds =>
        let request : TsdbQuery :=
          { timeRange := NewTimeRange req.timeFrom req.timeTo
            debug := req.debug
            queries := req.queries.map (fun q => mkLegacyQuery q (some ds)) }
        match hs.handleRequest (some ds) request with
        | .error _ =>
            (.error 500 "Metric request error", [.getDatasource dsid, .handleRequest request])
        | .ok resp =>
          let agg := aggregate resp
          (.json agg.1 agg.2, [.getDatasource dsid, .handleRequest request])

/-- `GenerateError` accesses position 20 of a freshly declared empty
string array and would wrap it in `JSON(200, ...)`; under a total
embedding the index access yields `none`, so no 200 payload is ever
produced. -/
def GenerateError : Option (Nat × String) :=
  (([] : List String).get? 20).map (fun s => (200, s))

/-- Spec-side view of the per-result update the aggregation loop
performs: an erroring result gets its error stringified into
`errorString`, a clean result is untouched. -/
def updError (r : QueryResult) : QueryResult :=
  match r.error with
  | some e => { r with errorString := e }
  | none => r

/-- The error message of the last erroring result of a list, if any. -/
def lastErrorMsg : List QueryResult → Option String
  | [] => none
  | r :: rs =>
    match lastErrorMsg rs with
    | some e => some e
    | none => r.error

/-- Whether some result of a list carries a non-nil error. -/
def hasErr (rs : List QueryResult) : Bool :=
  rs.any (fun r => r.error.isSome)

/-- The envelope message after the aggregation loop, starting from the
backend-provided message: overwritten by each erroring result in order. -/
def msgAfter (rs : List QueryResult) (msg : String) : String :=
  rs.foldl (fun m r => match r.error with | some e => e | none => m) msg

/-- The collaborator calls recorded by a loop outcome. -/
def LoopOutcome.trace : LoopOutcome → List Call
  | .abort _ tr => tr
  | .done _ _ _ tr => tr

/-- The `hasExpr` flag accumulated over a list of sub-queries, starting
from `b`, exactly as the V2 loop updates it. -/
def hasExprFold (qs : List RawQuery) (b : Bool) : Bool :=
  qs.foldl (fun acc q => if q.datasource = DatasourceName then true else acc) b

/-- The V2 response for each classified resolution failure. -/
def dsErrorResponse : DsError → Response
  | .accessDenied => .error 403 "Access denied to data source"
  | .notFound => .error 400 "Invalid data source ID"
  | .other _ => .error 500 "Unable to load data source metadata"

/-- The legacy response for each resolution failure: only access-denied
is distinguished, everything else (not-found included) becomes 500. -/
def legacyDsErrorResponse : DsError → Response
  | .accessDenied => .error 403 "Access denied to datasource"
  | .notFound => .error 500 "Unable to load datasource meta data"
  | .other _ => .error 500 "Unable to load datasource meta data"

/-- The request `QueryMetricsV2` dispatches for a batch whose loop
completed with data source `ds` attached. -/
def v2Request (tf tt : String) (dbg : Bool) (qs : List RawQuery) (ds : Option DataSource) :
    TsdbQuery :=
  { timeRange := NewTimeRange tf tt
    debug := dbg
    queries := qs.map (fun q => mkQuery q ds) }

/-- The request legacy `QueryMetrics` dispatches once resolution of the
first sub-query's id returned `ds`. -/
def legacyRequest (tf tt : String) (dbg : Bool) (qs : List RawQuery) (ds : Option DataSource) :
    TsdbQuery :=
  { timeRange := NewTimeRange tf tt
    debug := dbg
    queries := qs.map (fun q => mkLegacyQuery q ds) }

/-- A batch with every sub-query's declared data-source name rewritten
through `f`; ids and all other fields are untouched. -/
def mapNames (f : String → String) (req : MetricRequest) : MetricRequest :=
  { req with queries := req.queries.map (fun q => { q with datasource := f q.datasource }) }

/-- A shorthand raw sub-query: a declared data-source name and an
optional data-source id, all other fields absent. -/
def rq (name : String) (id : Option Int) : RawQuery :=
  ⟨name, id, none, none, none, none⟩

/-- A backend response with no per-sub-query results. -/
def emptyResp : TsdbResponse := { results := [], message := "" }

/-- A fully succeeding collaborator record: resolution always succeeds
(returning a data source tagged with the requested id), both backends
succeed with the empty response, expressions enabled. -/
def hsOk : HTTPServer :=
  { getDatasource := fun i => .ok ⟨i⟩
    handleRequest := fun _ _ => .ok emptyResp
    wrapTransformData := fun _ => .ok emptyResp
    exprEnabled := true }

/-- A collaborator record whose resolver always reports not-found. -/
def hsNotFound : HTTPServer :=
  { getDatasource := fun _ => .error .notFound
    handleRequest := fun _ _ => .error "unreached"
    wrapTransformData := fun _ => .error "unreached"
    exprEnabled := false }

/-- A collaborator record like `hsOk` but with expressions disabled. -/
def hsNoExpr : HTTPServer :=
  { getDatasource := fun i => .ok ⟨i⟩
    handleRequest := fun _ _ => .ok emptyResp
    wrapTransformData := fun _ => .ok emptyResp
    exprEnabled := false }

/-- A backend response with one clean and one erroring result. -/
def wresp : TsdbResponse :=
  { results := [⟨"A", none, ""⟩, ⟨"B", some "boom", ""⟩], message := "" }

/-- A collaborator record whose backends answer `wresp`. -/
def hsAgg : HTTPServer :=
  { getDatasource := fun i => .ok ⟨i⟩
    handleRequest := fun _ _ => .ok wresp
    wrapTransformData := fun _ => .ok wresp
    exprEnabled := true }

lemma agg_foldl (rs : List QueryResult) : ∀ st msg acc,
    rs.foldl aggStep (st, msg, acc)
      = (if hasErr rs then 400 else st, msgAfter rs msg, acc ++ rs.map updError) := by
  induction rs with
  | nil => intro st msg acc; simp [hasErr, msgAfter]
  | cons r rs ih =>
    intro st msg acc
    cases hr : r.error with
    | some e =>
      simp only [List.foldl_cons, aggStep, hr]
      rw [ih]
      simp [hasErr, msgAfter, updError, hr]
    | none =>
      simp only [List.foldl_cons, aggStep, hr]
      rw [ih]
      simp [hasErr, msgAfter, updError, hr]

lemma aggregate_eq (resp : TsdbResponse) :
    aggregate resp
      = (if hasErr resp.results then 400 else 200,
         { results := resp.results.map updError,
           message := msgAfter resp.results resp.message }) := by
  simp [aggregate, agg_foldl]

lemma msgAfter_eq (rs : List QueryResult) :
    ∀ msg, msgAfter rs msg = (lastErrorMsg rs).getD msg := by
  induction rs with
  | nil => intro msg; simp [msgAfter, lastErrorMsg]
  | cons r rs ih =>
    intro msg
    have hcons : msgAfter (r :: rs) msg
        = msgAfter rs (match r.error with | some e => e | none => msg) := rfl
    rw [hcons, ih]
    cases hlast : lastErrorMsg rs with
    | some e => simp [lastErrorMsg, hlast]
    | none => cases hr : r.error <;> simp [lastErrorMsg, hlast, hr]

lemma hasErr_false_iff (rs : List QueryResult) :
    hasErr rs = false ↔ ∀ r ∈ rs, r.error = none := by
  simp [hasErr, Option.isSome_iff_exists]
  constructor
  · intro h r hr
    cases hr' : r.error with
    | none => rfl
    | some e => exact absurd hr' (h r hr e)
  · intro h r hr e he
    rw [h r hr] at he
    cases he

lemma aggregate_status (resp : TsdbResponse) :
    (aggregate resp).1 = 200 ∨ (aggregate resp).1 = 400 := by
  rw [aggregate_eq]
  by_cases h : hasErr resp.results = true
  · right; simp [h]
  · left; simp [h]

lemma hasExprFold_cons (q : RawQuery) (qs : List RawQuery) (b : Bool) :
    hasExprFold (q :: qs) b
      = hasExprFold qs (if q.datasource = DatasourceName then true else b) := rfl

lemma hasExprFold_true (qs : List RawQuery) : hasExprFold qs true = true := by
  induction qs with
  | nil => rfl
  | cons q qs ih => rw [hasExprFold_cons]; simp [ih]

lemma hasExprFold_of_not (qs : List RawQuery) (b : Bool)
    (h : ∀ q ∈ qs, q.datasource ≠ DatasourceName) : hasExprFold qs b = b := by
  induction qs with
  | nil => rfl
  | cons q qs ih =>
    rw [hasExprFold_cons]
    rw [if_neg (h q (List.mem_cons_self q qs))]
    exact ih (fun q' hq' => h q' (List.mem_cons_of_mem q hq'))

lemma hasExprFold_of_mem (qs : List RawQuery) (b : Bool)
    (h : ∃ q ∈ qs, q.datasource = DatasourceName) : hasExprFold qs b = true := by
  induction qs generalizing b with
  | nil => obtain ⟨q, hq, _⟩ := h; cases hq
  | cons q qs ih =>
    rw [hasExprFold_cons]
    obtain ⟨q', hq', hname⟩ := h
    rcases List.mem_cons.mp hq' with h1 | h1
    · subst h1; rw [if_pos hname]; exact hasExprFold_true qs
    · by_cases hq : q.datasource = DatasourceName
      · rw [if_pos hq]; exact hasExprFold_true qs
      · rw [if_neg hq]; exact ih _ ⟨q', h1, hname⟩

/-- Past index 0 the V2 loop performs no resolution: with every
`datasourceId` present it completes, accumulating the `hasExpr` flag,
attaching the data source it was handed to every remaining sub-query,
and recording no collaborator call. -/
lemma v2Loop_tail (hs : HTTPServer) (qs : List RawQuery) :
    ∀ i he ds, (∀ q ∈ qs, (q.datasourceId).isSome) →
      v2Loop hs (i + 1) he ds qs
        = .done (hasExprFold qs he) ds (qs.map (fun q => mkQuery q ds)) [] := by
  induction qs with
  | nil => intro i he ds _; rfl
  | cons q qs ih =>
    intro i he ds h
    have hq : (q.datasourceId).isSome := h q (List.mem_cons_self q qs)
    cases hid : q.datasourceId with
    | none => rw [hid] at hq; cases hq
    | some dsid =>
      have hrest : ∀ q' ∈ qs, (q'.datasourceId).isSome :=
        fun q' hq' => h q' (List.mem_cons_of_mem q hq')
      have hrec := ih (i + 1) (if q.datasource = DatasourceName then true else he) ds hrest
      simp only [v2Loop, hid]
      rw [if_neg (by simp)]
      rw [hrec, hasExprFold_cons]
      rfl

/-- Past index 0 the V2 loop never calls the data-source resolver,
whatever its outcome. -/
lemma v2Loop_tail_no_gds (hs : HTTPServer) (qs : List RawQuery) :
    ∀ i he ds id, Call.getDatasource id ∉ (v2Loop hs (i + 1) he ds qs).trace := by
  induction qs with
  | nil => intro i he ds id; simp [v2Loop, LoopOutcome.trace]
  | cons q qs ih =>
    intro i he ds id
    cases hid : q.datasourceId with
    | none => simp [v2Loop, hid, LoopOutcome.trace]
    | some dsid =>
      have hrec := ih (i + 1) (if q.datasource = DatasourceName then true else he) ds id
      simp only [v2Loop, hid]
      rw [if_neg (by simp)]
      cases hout : v2Loop hs (i + 1 + 1)
          (if q.datasource = DatasourceName then true else he) ds qs with
      | abort r tr =>
        rw [hout] at hrec
        simpa [LoopOutcome.trace] using hrec
      | done he2 ds2 qs2 tr =>
        rw [hout] at hrec
        simpa [LoopOutcome.trace] using hrec

/-- Direct head step: with the first sub-query not naming the sentinel,
its id present and resolution succeeding, the loop completes, resolving
exactly once and attaching the resolved source everywhere. -/
lemma v2Loop_head_direct (hs : HTTPServer) (q0 : RawQuery) (rest : List RawQuery)
    (i0 : Int) (d : DataSource)
    (h0 : q0.datasource ≠ DatasourceName)
    (hid0 : q0.datasourceId = some i0)
    (hres : hs.getDatasource i0 = .ok d)
    (hids : ∀ q ∈ rest, (q.datasourceId).isSome) :
    v2Loop hs 0 false none (q0 :: rest)
      = .done (hasExprFold rest false) (some d)
          ((q0 :: rest).map (fun q => mkQuery q (some d))) [.getDatasource i0] := by
  have hrec := v2Loop_tail hs rest 0
    (if q0.datasource = DatasourceName then true else false) (some d) hids
  rw [if_neg h0] at hrec
  simp [v2Loop, hid0, if_neg h0, hres, hrec]

/-- Failing head step: with the first sub-query not naming the sentinel
and its id present, a failing resolution aborts with the classified
response after exactly one resolver call. -/
lemma v2Loop_head_fail (hs : HTTPServer) (q0 : RawQuery) (rest : List RawQuery)
    (i0 : Int) (e : DsError)
    (h0 : q0.datasource ≠ DatasourceName)
    (hid0 : q0.datasourceId = some i0)
    (hres : hs.getDatasource i0 = .error e) :
    v2Loop hs 0 false none (q0 :: rest)
      = .abort (dsErrorResponse e) [.getDatasource i0] := by
  cases e <;> simp [v2Loop, hid0, if_neg h0, hres, dsErrorResponse]

/-- When the first sub-query names the expression sentinel, the loop
never calls the resolver. -/
lemma v2Loop_expr_first_no_gds (hs : HTTPServer) (q0 : RawQuery) (rest : List RawQuery)
    (h0 : q0.datasource = DatasourceName) (id : Int) :
    Call.getDatasource id ∉ (v2Loop hs 0 false none (q0 :: rest)).trace := by
  cases hid : q0.datasourceId with
  | none => simp [v2Loop, hid, LoopOutcome.trace]
  | some dsid =>
    have hrec := v2Loop_tail_no_gds hs rest 0 true none id
    simp only [v2Loop, hid, if_pos h0]
    rw [if_neg (by simp)]
    cases hout : v2Loop hs (0 + 1) true none rest with
    | abort r tr =>
      rw [hout] at hrec
      simpa [LoopOutcome.trace] using hrec
    | done he2 ds2 qs2 tr =>
      rw [hout] at hrec
      simpa [LoopOutcome.trace] using hrec

/-- If any sub-query misses its id and the resolver never fails, the
loop aborts with the missing-id validation error, the trace holding
resolver calls only. -/
lemma v2Loop_missing (hs : HTTPServer) (qs : List RawQuery)
    (hok : ∀ id, ∃ d, hs.getDatasource id = .ok d) :
    ∀ i he ds, (∃ q ∈ qs, q.datasourceId = none) →
      ∃ tr, v2Loop hs i he ds qs = .abort (.error 400 "Query missing data source ID") tr
        ∧ ∀ c ∈ tr, ∃ id, c = .getDatasource id := by
  induction qs with
  | nil => intro i he ds h; obtain ⟨q, hq, _⟩ := h; cases hq
  | cons q qs ih =>
    intro i he ds h
    cases hid : q.datasourceId with
    | none =>
      refine ⟨[], ?_, by simp⟩
      simp [v2Loop, hid]
    | some dsid =>
      have hqs : ∃ q' ∈ qs, q'.datasourceId = none := by
        obtain ⟨q', hq', hn⟩ := h
        rcases List.mem_cons.mp hq' with h1 | h1
        · subst h1; rw [hid] at hn; cases hn
        · exact ⟨q', h1, hn⟩
      by_cases hcond : i = 0 ∧ (if q.datasource = DatasourceName then true else he) = false
      · obtain ⟨d, hd⟩ := hok dsid
        obtain ⟨tr, htr, hall⟩ :=
          ih (i + 1) (if q.datasource = DatasourceName then true else he) (some d) hqs
        refine ⟨.getDatasource dsid :: tr, ?_, ?_⟩
        · simp only [v2Loop, hid]
          rw [if_pos hcond]
          simp only [hd]
          rw [htr]
        · intro c hc
          rcases List.mem_cons.mp hc with h1 | h1
          · exact ⟨dsid, h1⟩
          · exact hall c h1
      · obtain ⟨tr, htr, hall⟩ :=
          ih (i + 1) (if q.datasource = DatasourceName then true else he) ds hqs
        refine ⟨tr, ?_, hall⟩
        simp only [v2Loop, hid]
        rw [if_neg hcond, htr]

/-- With every id present and a never-failing resolver the loop always
completes, returning the accumulated `hasExpr` flag over the whole
batch, the trace holding resolver calls only. -/
lemma v2Loop_complete (hs : HTTPServer) (q0 : RawQuery) (rest : List RawQuery)
    (hids : ∀ q ∈ q0 :: rest, (q.datasourceId).isSome)
    (hok : ∀ id, ∃ d, hs.getDatasource id = .ok d) :
    ∃ ds tr, (∃ qs, v2Loop hs 0 false none (q0 :: rest)
        = .done (hasExprFold (q0 :: rest) false) ds qs tr)
      ∧ ∀ c ∈ tr, ∃ id, c = .getDatasource id := by
  have hid0 : (q0.datasourceId).isSome := hids q0 (List.mem_cons_self _ _)
  cases hid : q0.datasourceId with
  | none => rw [hid] at hid0; cases hid0
  | some i0 =>
    have hrest : ∀ q ∈ rest, (q.datasourceId).isSome :=
      fun q hq => hids q (List.mem_cons_of_mem _ hq)
    by_cases h0 : q0.datasource = DatasourceName
    · have hrec := v2Loop_tail hs rest 0 true none hrest
      refine ⟨none, [], ⟨mkQuery q0 none :: rest.map (fun q => mkQuery q none), ?_⟩, by simp⟩
      simp only [v2Loop, hid, if_pos h0]
      rw [if_neg (by simp), hrec, hasExprFold_cons, if_pos h0]
    · obtain ⟨d, hd⟩ := hok i0
      have hhead := v2Loop_head_direct hs q0 rest i0 d h0 hid hd hrest
      refine ⟨some d, [.getDatasource i0],
        ⟨(q0 :: rest).map (fun q => mkQuery q (some d)), ?_⟩, ?_⟩
      · rw [hhead, hasExprFold_cons, if_neg h0]
      · intro c hc
        rcases List.mem_cons.mp hc with h1 | h1
        · exact ⟨i0, h1⟩
        · cases h1

/-- Direct path of `QueryMetricsV2`, backend succeeding: the envelope is
the streamed aggregation of the backend results and the trace is one
resolver call followed by one executor call. -/
lemma QueryMetricsV2_direct_ok (hs : HTTPServer) (tf tt : String) (dbg : Bool)
    (q0 : RawQuery) (rest : List RawQuery) (i0 : Int) (d : DataSource) (resp : TsdbResponse)
    (hdirect : ∀ q ∈ q0 :: rest, q.datasource ≠ DatasourceName)
    (hids : ∀ q ∈ q0 :: rest, (q.datasourceId).isSome)
    (hid0 : q0.datasourceId = some i0)
    (hres : hs.getDatasource i0 = .ok d)
    (hok : hs.handleRequest (some d) (v2Request tf tt dbg (q0 :: rest) (some d)) = .ok resp) :
    QueryMetricsV2 hs ⟨tf, tt, dbg, q0 :: rest⟩
      = (.jsonStreaming (aggregate resp).1 (aggregate resp).2,
         [.getDatasource i0,
          .handleRequest (v2Request tf tt dbg (q0 :: rest) (some d))]) := by
  have h0 : q0.datasource ≠ DatasourceName := hdirect q0 (List.mem_cons_self _ _)
  have hrest : ∀ q ∈ rest, (q.datasourceId).isSome :=
    fun q hq => hids q (List.mem_cons_of_mem _ hq)
  have hhead := v2Loop_head_direct hs q0 rest i0 d h0 hid0 hres hrest
  have hfold : hasExprFold rest false = false :=
    hasExprFold_of_not rest false (fun q hq => hdirect q (List.mem_cons_of_mem _ hq))
  rw [hfold] at hhead
  simp only [v2Request, List.map_cons] at hok ⊢
  simp [QueryMetricsV2, hhead, hok]

/-- Direct path of `QueryMetricsV2`, backend failing as a whole: 500
with no aggregation, after one resolver call and one executor call. -/
lemma QueryMetricsV2_direct_err (hs : HTTPServer) (tf tt : String) (dbg : Bool)
    (q0 : RawQuery) (rest : List RawQuery) (i0 : Int) (d : DataSource) (m : String)
    (hdirect : ∀ q ∈ q0 :: rest, q.datasource ≠ DatasourceName)
    (hids : ∀ q ∈ q0 :: rest, (q.datasourceId).isSome)
    (hid0 : q0.datasourceId = some i0)
    (hres : hs.getDatasource i0 = .ok d)
    (herr : hs.handleRequest (some d) (v2Request tf tt dbg (q0 :: rest) (some d)) = .error m) :
    QueryMetricsV2 hs ⟨tf, tt, dbg, q0 :: rest⟩
      = (.error 500 "Metric request error",
         [.getDatasource i0,
          .handleRequest (v2Request tf tt dbg (q0 :: rest) (some d))]) := by
  have h0 : q0.datasource ≠ DatasourceName := hdirect q0 (List.mem_cons_self _ _)
  have hrest : ∀ q ∈ rest, (q.datasourceId).isSome :=
    fun q hq => hids q (List.mem_cons_of_mem _ hq)
  have hhead := v2Loop_head_direct hs q0 rest i0 d h0 hid0 hres hrest
  have hfold : hasExprFold rest false = false :=
    hasExprFold_of_not rest false (fun q hq => hdirect q (List.mem_cons_of_mem _ hq))
  rw [hfold] at hhead
  simp only [v2Request, List.map_cons] at herr ⊢
  simp [QueryMetricsV2, hhead, herr]

/-- Resolution failure in `QueryMetricsV2`: the classified error is
returned after exactly one resolver call, no backend invoked. -/
lemma QueryMetricsV2_dsfail (hs : HTTPServer) (tf tt : String) (dbg : Bool)
    (q0 : RawQuery) (rest : List RawQuery) (i0 : Int) (e : DsError)
    (h0 : q0.datasource ≠ DatasourceName)
    (hid0 : q0.datasourceId = some i0)
    (hres : hs.getDatasource i0 = .error e) :
    QueryMetricsV2 hs ⟨tf, tt, dbg, q0 :: rest⟩
      = (dsErrorResponse e, [.getDatasource i0]) := by
  have hhead := v2Loop_head_fail hs q0 rest i0 e h0 hid0 hres
  simp [QueryMetricsV2, hhead]

/-- Legacy `QueryMetrics`, backend succeeding: the envelope is the
buffered aggregation of the backend results and the trace is one
resolver call followed by one executor call. -/
lemma QueryMetrics_ok (hs : HTTPServer) (tf tt : String) (dbg : Bool)
    (q0 : RawQuery) (rest : List RawQuery) (i0 : Int) (d : DataSource) (resp : TsdbResponse)
    (hid0 : q0.datasourceId = some i0)
    (hres : hs.getDatasource i0 = .ok d)
    (hok : hs.handleRequest (some d) (legacyRequest tf tt dbg (q0 :: rest) (some d)) = .ok resp) :
    QueryMetrics hs ⟨tf, tt, dbg, q0 :: rest⟩
      = (.json (aggregate resp).1 (aggregate resp).2,
         [.getDatasource i0,
          .handleRequest (legacyRequest tf tt dbg (q0 :: rest) (some d))]) := by
  simp only [legacyRequest, List.map_cons] at hok ⊢
  simp [QueryMetrics, hid0, hres, hok]

/-- Legacy `QueryMetrics`, backend failing as a whole: 500, after one
resolver call and one executor call. -/
lemma QueryMetrics_err (hs : HTTPServer) (tf tt : String) (dbg : Bool)
    (q0 : RawQuery) (rest : List RawQuery) (i0 : Int) (d : DataSource) (m : String)
    (hid0 : q0.datasourceId = some i0)
    (hres : hs.getDatasource i0 = .ok d)
    (herr : hs.handleRequest (some d) (legacyRequest tf tt dbg (q0 :: rest) (some d))
        = .error m) :
    QueryMetrics hs ⟨tf, tt, dbg, q0 :: rest⟩
      = (.error 500 "Metric request error",
         [.getDatasource i0,
          .handleRequest (legacyRequest tf tt dbg (q0 :: rest) (some d))]) := by
  simp only [legacyRequest, List.map_cons] at herr ⊢
  simp [QueryMetrics, hid0, hres, herr]

/-- Resolution failure in legacy `QueryMetrics`: only access-denied is
distinguished (403); everything else, not-found included, becomes 500.
No backend invoked. -/
lemma QueryMetrics_dsfail (hs : HTTPServer) (tf tt : String) (dbg : Bool)
    (q0 : RawQuery) (rest : List RawQuery) (i0 : Int) (e : DsError)
    (hid0 : q0.datasourceId = some i0)
    (hres : hs.getDatasource i0 = .error e) :
    QueryMetrics hs ⟨tf, tt, dbg, q0 :: rest⟩
      = (legacyDsErrorResponse e, [.getDatasource i0]) := by
  cases e <;> simp [QueryMetrics, hid0, hres, legacyDsErrorResponse]

/-- Past index 0 the loop records no collaborator call at all, whatever
its outcome: resolution is an index-0-only affair. -/
lemma v2Loop_tail_trace_nil (hs : HTTPServer) (qs : List RawQuery) :
    ∀ i he ds, (v2Loop hs (i + 1) he ds qs).trace = [] := by
  induction qs with
  | nil => intro i he ds; rfl
  | cons q qs ih =>
    intro i he ds
    cases hid : q.datasourceId with
    | none => simp [v2Loop, hid, LoopOutcome.trace]
    | some dsid =>
      have hrec := ih (i + 1) (if q.datasource = DatasourceName then true else he) ds
      simp only [v2Loop, hid]
      rw [if_neg (by simp)]
      cases hout : v2Loop hs (i + 1 + 1)
          (if q.datasource = DatasourceName then true else he) ds qs with
      | abort r tr =>
        rw [hout] at hrec
        simpa [LoopOutcome.trace] using hrec
      | done he2 ds2 qs2 tr =>
        rw [hout] at hrec
        simpa [LoopOutcome.trace] using hrec

/-- With the first sub-query not naming the sentinel and its id present,
the loop's whole trace is the single resolver call on that id, whatever
the resolver returns and however the loop later ends. -/
lemma v2Loop_head_trace (hs : HTTPServer) (q0 : RawQuery) (rest : List RawQuery) (i0 : Int)
    (h0 : q0.datasource ≠ DatasourceName)
    (hid0 : q0.datasourceId = some i0) :
    (v2Loop hs 0 false none (q0 :: rest)).trace = [.getDatasource i0] := by
  cases hres : hs.getDatasource i0 with
  | error e =>
    rw [v2Loop_head_fail hs q0 rest i0 e h0 hid0 hres]
    rfl
  | ok d =>
    have htail := v2Loop_tail_trace_nil hs rest 0 false (some d)
    simp only [v2Loop, hid0, if_neg h0]
    rw [if_pos (by simp)]
    simp only [hres]
    cases hout : v2Loop hs (0 + 1) false (some d) rest with
    | abort r tr =>
      rw [hout] at htail
      simp only [LoopOutcome.trace] at htail ⊢
      rw [htail]
    | done he2 ds2 qs2 tr =>
      rw [hout] at htail
      simp only [LoopOutcome.trace] at htail ⊢
      rw [htail]

/-- `QueryMetricsV2` resolves exactly once — with the first sub-query's
id — whenever the first sub-query does not name the sentinel and its id
is present: the resolver calls of its trace are exactly that one call. -/
lemma QueryMetricsV2_resolve_once (hs : HTTPServer) (tf tt : String) (dbg : Bool)
    (q0 : RawQuery) (rest : List RawQuery) (i0 : Int)
    (h0 : q0.datasource ≠ DatasourceName)
    (hid0 : q0.datasourceId = some i0) :
    ((QueryMetricsV2 hs ⟨tf, tt, dbg, q0 :: rest⟩).2).filter Call.isResolve
      = [.getDatasource i0] := by
  have htr := v2Loop_head_trace hs q0 rest i0 h0 hid0
  simp only [QueryMetricsV2]
  rw [if_neg (by simp)]
  cases hout : v2Loop hs 0 false none (q0 :: rest) with
  | abort r tr =>
    rw [hout] at htr
    simp only [LoopOutcome.trace] at htr
    simp [htr, Call.isResolve]
  | done he ds qs tr =>
    rw [hout] at htr
    simp only [LoopOutcome.trace] at htr
    subst htr
    by_cases he0 : he = false
    · subst he0
      cases hh : hs.handleRequest ds
          { timeRange := NewTimeRange tf tt, debug := dbg, queries := qs } with
      | error m => simp [hh, Call.isResolve]
      | ok resp => simp [hh, Call.isResolve]
    · have he1 : he = true := by cases he <;> simp_all
      subst he1
      by_cases hb : hs.exprEnabled = false
      · simp [hb, Call.isResolve]
      · have hb1 : hs.exprEnabled = true := by cases h : hs.exprEnabled <;> simp_all
        cases hw : hs.wrapTransformData
            { timeRange := NewTimeRange tf tt, debug := dbg, queries := qs } with
        | error m => simp [hb1, hw, Call.isResolve]
        | ok resp => simp [hb1, hw, Call.isResolve]

/-- Legacy `QueryMetrics` also resolves exactly once with the first
sub-query's id, whenever that id is present. -/
lemma QueryMetrics_resolve_once (hs : HTTPServer) (tf tt : String) (dbg : Bool)
    (q0 : RawQuery) (rest : List RawQuery) (i0 : Int)
    (hid0 : q0.datasourceId = some i0) :
    ((QueryMetrics hs ⟨tf, tt, dbg, q0 :: rest⟩).2).filter Call.isResolve
      = [.getDatasource i0] := by
  cases hres : hs.getDatasource i0 with
  | error e => cases e <;> simp [QueryMetrics, hid0, hres, Call.isResolve]
  | ok d =>
    cases hh : hs.handleRequest (some d)
        { timeRange := NewTimeRange tf tt, debug := dbg,
          queries := mkLegacyQuery q0 (some d) :: rest.map (fun q => mkLegacyQuery q (some d)) } with
    | error m => simp [QueryMetrics, hid0, hres, hh, Call.isResolve]
    | ok resp => simp [QueryMetrics, hid0, hres, hh, Call.isResolve]

/-- Every status legacy `QueryMetrics` can emit is 400, 403, 500 or 200. -/
lemma QueryMetrics_status_mem (hs : HTTPServer) (req : MetricRequest) :
    (QueryMetrics hs req).1.status ∈ ([400, 403, 500, 200] : List Nat) := by
  cases hq : req.queries with
  | nil => simp [QueryMetrics, hq, Response.status]
  | cons q0 rest =>
    cases hid : q0.datasourceId with
    | none => simp [QueryMetrics, hq, hid, Response.status]
    | some dsid =>
      cases hres : hs.getDatasource dsid with
      | error e => cases e <;> simp [QueryMetrics, hq, hid, hres, Response.status]
      | ok d =>
        cases hh : hs.handleRequest (some d)
            { timeRange := NewTimeRange req.timeFrom req.timeTo, debug := req.debug,
              queries := mkLegacyQuery q0 (some d)
                :: rest.map (fun q => mkLegacyQuery q (some d)) } with
        | error m => simp [QueryMetrics, hq, hid, hres, hh, Response.status]
        | ok resp =>
          rcases aggregate_status resp with h | h <;>
            simp [QueryMetrics, hq, hid, hres, hh, Response.status, h]

/-- Legacy `QueryMetrics` never invokes the expression evaluator. -/
lemma QueryMetrics_no_wrap (hs : HTTPServer) (req : MetricRequest) (tq : TsdbQuery) :
    Call.wrapTransformData tq ∉ (QueryMetrics hs req).2 := by
  cases hq : req.queries with
  | nil => simp [QueryMetrics, hq]
  | cons q0 rest =>
    cases hid : q0.datasourceId with
    | none => simp [QueryMetrics, hq, hid]
    | some dsid =>
      cases hres : hs.getDatasource dsid with
      | error e => cases e <;> simp [QueryMetrics, hq, hid, hres]
      | ok d =>
        cases hh : hs.handleRequest (some d)
            { timeRange := NewTimeRange req.timeFrom req.timeTo, debug := req.debug,
              queries := mkLegacyQuery q0 (some d)
                :: rest.map (fun q => mkLegacyQuery q (some d)) } with
        | error m => simp [QueryMetrics, hq, hid, hres, hh]
        | ok resp => simp [QueryMetrics, hq, hid, hres, hh]

/-- The shape of legacy `QueryMetrics`'s collaborator trace, up to call
payloads, is a function of the first sub-query's id and the resolver
outcome alone. -/
lemma QueryMetrics_kinds (hs : HTTPServer) (req : MetricRequest) :
    ((QueryMetrics hs req).2).map Call.kind
      = (match req.queries with
         | [] => []
         | q0 :: _ =>
           match q0.datasourceId with
           | none => []
           | some dsid =>
             match hs.getDatasource dsid with
             | .error _ => [0]
             | .ok _ => [0, 1]) := by
  cases hq : req.queries with
  | nil => simp [QueryMetrics, hq]
  | cons q0 rest =>
    cases hid : q0.datasourceId with
    | none => simp [QueryMetrics, hq, hid]
    | some dsid =>
      cases hres : hs.getDatasource dsid with
      | error e => cases e <;> simp [QueryMetrics, hq, hid, hres, Call.kind]
      | ok d =>
        cases hh : hs.handleRequest (some d)
            { timeRange := NewTimeRange req.timeFrom req.timeTo, debug := req.debug,
              queries := mkLegacyQuery q0 (some d)
                :: rest.map (fun q => mkLegacyQuery q (some d)) } with
        | error m => simp [QueryMetrics, hq, hid, hres, hh, Call.kind]
        | ok resp => simp [QueryMetrics, hq, hid, hres, hh, Call.kind]

/-- Claim C7: for every batch with zero sub-queries, both entry points
return the 400 validation error "No queries found in query" and invoke
no collaborator at all (empty trace): neither resolution nor a backend
runs. -/
theorem C7_empty_batch (hs : HTTPServer) (tf tt : String) (dbg : Bool) :
    QueryMetricsV2 hs ⟨tf, tt, dbg, []⟩ = (.error 400 "No queries found in query", [])
    ∧ QueryMetrics hs ⟨tf, tt, dbg, []⟩ = (.error 400 "No queries found in query", []) := by
  constructor
  · simp [QueryMetricsV2]
  · simp [QueryMetrics]

/-- Claim C9: both handlers are deterministic functions of the inbound
batch and the collaborator record: handling the same batch twice against
unchanged collaborators yields structurally identical envelopes and
traces. -/
theorem C9_deterministic (hs1 hs2 : HTTPServer) (req1 req2 : MetricRequest)
    (hhs : hs1 = hs2) (hreq : req1 = req2) :
    QueryMetricsV2 hs1 req1 = QueryMetricsV2 hs2 req2
    ∧ QueryMetrics hs1 req1 = QueryMetrics hs2 req2 := by
  subst hhs
  subst hreq
  exact ⟨rfl, rfl⟩

theorem C9_deterministic_witness :
    QueryMetricsV2 hsOk ⟨"", "", false, [rq "" (some 1)]⟩
      = QueryMetricsV2 hsOk ⟨"", "", false, [rq "" (some 1)]⟩
    ∧ QueryMetrics hsOk ⟨"", "", false, [rq "" (some 1)]⟩
      = QueryMetrics hsOk ⟨"", "", false, [rq "" (some 1)]⟩ :=
  C9_deterministic hsOk hsOk ⟨"", "", false, [rq "" (some 1)]⟩ ⟨"", "", false, [rq "" (some 1)]⟩
    rfl rfl

/-- Claim C10: `GenerateError` indexes position 20 of an empty array;
under the total embedding that access yields `none` on every invocation,
so the endpoint never produces a normal 200 response value. -/
theorem C10_generate_error : GenerateError = none ∧ ∀ p, GenerateError ≠ some p := by
  refine ⟨rfl, fun p h => ?_⟩
  exact Option.noConfusion h

/-- Claim C2 counterexample: with a resolver reporting not-found, the
legacy entry point answers 500 "Unable to load datasource meta data",
not the claimed 400: legacy never distinguishes not-found from other
resolution failures. -/
theorem C2_counterexample :
    QueryMetrics hsNotFound ⟨"now-1h", "now", false, [rq "" (some 1)]⟩
      = (.error 500 "Unable to load datasource meta data", [.getDatasource 1])
    ∧ (QueryMetrics hsNotFound ⟨"now-1h", "now", false, [rq "" (some 1)]⟩).1.status ≠ 400 := by
  constructor
  · decide
  · decide

/-- Claim C2 (amended): `QueryMetricsV2` classifies a resolution failure
as access-denied → 403, not-found → 400, anything else → 500; legacy
`QueryMetrics` classifies access-denied → 403 and EVERY other failure,
not-found included, → 500. In both entry points the trace after a
resolution failure is the single resolver call: no backend is invoked. -/
theorem C2_resolution_failure (hs : HTTPServer) (tf tt : String) (dbg : Bool)
    (q0 : RawQuery) (rest : List RawQuery) (i0 : Int)
    (h0 : q0.datasource ≠ DatasourceName)
    (hid0 : q0.datasourceId = some i0) :
    (hs.getDatasource i0 = .error .accessDenied →
       QueryMetricsV2 hs ⟨tf, tt, dbg, q0 :: rest⟩
         = (.error 403 "Access denied to data source", [.getDatasource i0])
       ∧ QueryMetrics hs ⟨tf, tt, dbg, q0 :: rest⟩
         = (.error 403 "Access denied to datasource", [.getDatasource i0]))
    ∧ (hs.getDatasource i0 = .error .notFound →
       QueryMetricsV2 hs ⟨tf, tt, dbg, q0 :: rest⟩
         = (.error 400 "Invalid data source ID", [.getDatasource i0])
       ∧ QueryMetrics hs ⟨tf, tt, dbg, q0 :: rest⟩
         = (.error 500 "Unable to load datasource meta data", [.getDatasource i0]))
    ∧ (∀ m, hs.getDatasource i0 = .error (.other m) →
       QueryMetricsV2 hs ⟨tf, tt, dbg, q0 :: rest⟩
         = (.error 500 "Unable to load data source metadata", [.getDatasource i0])
       ∧ QueryMetrics hs ⟨tf, tt, dbg, q0 :: rest⟩
         = (.error 500 "Unable to load datasource meta data", [.getDatasource i0])) := by
  refine ⟨fun h => ⟨?_, ?_⟩, fun h => ⟨?_, ?_⟩, fun m h => ⟨?_, ?_⟩⟩
  · exact QueryMetricsV2_dsfail hs tf tt dbg q0 rest i0 _ h0 hid0 h
  · exact QueryMetrics_dsfail hs tf tt dbg q0 rest i0 _ hid0 h
  · exact QueryMetricsV2_dsfail hs tf tt dbg q0 rest i0 _ h0 hid0 h
  · exact QueryMetrics_dsfail hs tf tt dbg q0 rest i0 _ hid0 h
  · exact QueryMetricsV2_dsfail hs tf tt dbg q0 rest i0 _ h0 hid0 h
  · exact QueryMetrics_dsfail hs tf tt dbg q0 rest i0 _ hid0 h

theorem C2_resolution_failure_witness :
    QueryMetricsV2 hsNotFound ⟨"now-1h", "now", false, [rq "" (some 1)]⟩
      = (.error 400 "Invalid data source ID", [.getDatasource 1])
    ∧ QueryMetrics hsNotFound ⟨"now-1h", "now", false, [rq "" (some 1)]⟩
      = (.error 500 "Unable to load datasource meta data", [.getDatasource 1]) :=
  (C2_resolution_failure hsNotFound "now-1h" "now" false (rq "" (some 1)) [] 1
    (by decide) rfl).2.1 rfl

/-- The trace of `QueryMetricsV2` on a non-empty batch is the loop's
trace, possibly followed by one non-resolver (backend) call. -/
lemma QueryMetricsV2_trace_split (hs : HTTPServer) (tf tt : String) (dbg : Bool)
    (q0 : RawQuery) (rest : List RawQuery) :
    (QueryMetricsV2 hs ⟨tf, tt, dbg, q0 :: rest⟩).2
        = (v2Loop hs 0 false none (q0 :: rest)).trace
    ∨ ∃ c, Call.isResolve c = false
        ∧ (QueryMetricsV2 hs ⟨tf, tt, dbg, q0 :: rest⟩).2
            = (v2Loop hs 0 false none (q0 :: rest)).trace ++ [c] := by
  simp only [QueryMetricsV2]
  rw [if_neg (by simp)]
  cases hout : v2Loop hs 0 false none (q0 :: rest) with
  | abort r tr => left; rfl
  | done he ds qs tr =>
    simp only [LoopOutcome.trace]
    cases he with
    | false =>
      cases hh : hs.handleRequest ds
          { timeRange := NewTimeRange tf tt, debug := dbg, queries := qs } with
      | error m =>
        right
        exact ⟨.handleRequest { timeRange := NewTimeRange tf tt, debug := dbg, queries := qs },
          rfl, by simp [hh]⟩
      | ok resp =>
        right
        exact ⟨.handleRequest { timeRange := NewTimeRange tf tt, debug := dbg, queries := qs },
          rfl, by simp [hh]⟩
    | true =>
      cases hb : hs.exprEnabled with
      | false => left; simp [hb]
      | true =>
        cases hw : hs.wrapTransformData
            { timeRange := NewTimeRange tf tt, debug := dbg, queries := qs } with
        | error m =>
          right
          exact ⟨.wrapTransformData { timeRange := NewTimeRange tf tt, debug := dbg, queries := qs },
            rfl, by simp [hb, hw]⟩
        | ok resp =>
          right
          exact ⟨.wrapTransformData { timeRange := NewTimeRange tf tt, debug := dbg, queries := qs },
            rfl, by simp [hb, hw]⟩

/-- Claim C4 counterexample: a batch whose SECOND sub-query misses its
data-source id. The legacy entry point never looks at it: it resolves
the first id, dispatches the whole batch to the executor and answers
200 — not the claimed 400-with-no-dispatch. -/
theorem C4_counterexample :
    QueryMetrics hsOk ⟨"", "", false, [rq "" (some 1), rq "" none]⟩
      = (.json 200 emptyResp,
         [.getDatasource 1,
          .handleRequest (legacyRequest "" "" false [rq "" (some 1), rq "" none] (some ⟨1⟩))])
    ∧ (QueryMetrics hsOk ⟨"", "", false, [rq "" (some 1), rq "" none]⟩).1.status ≠ 400 := by
  exact ⟨by decide, by decide⟩

/-- Claim C4 (amended): in `QueryMetricsV2` any sub-query with a missing
data-source id aborts the whole batch with 400 "Query missing data
source ID" and no backend call (the trace holds resolver calls only),
provided resolution itself does not fail first; in legacy `QueryMetrics`
only a missing id on the FIRST sub-query is detected, yielding 400
"Query missing datasourceId" with no collaborator call at all. -/
theorem C4_missing_id (hs : HTTPServer) (tf tt : String) (dbg : Bool)
    (qs : List RawQuery) (q0 : RawQuery) (rest : List RawQuery)
    (hok : ∀ id, ∃ d, hs.getDatasource id = .ok d) :
    ((∃ q ∈ qs, q.datasourceId = none) →
       (QueryMetricsV2 hs ⟨tf, tt, dbg, qs⟩).1 = .error 400 "Query missing data source ID"
       ∧ ∀ c ∈ (QueryMetricsV2 hs ⟨tf, tt, dbg, qs⟩).2, ∃ id, c = .getDatasource id)
    ∧ (q0.datasourceId = none →
       QueryMetrics hs ⟨tf, tt, dbg, q0 :: rest⟩
         = (.error 400 "Query missing datasourceId", [])) := by
  constructor
  · intro hmiss
    cases qs with
    | nil => obtain ⟨q, hq, _⟩ := hmiss; cases hq
    | cons a as =>
      obtain ⟨tr, htr, hall⟩ := v2Loop_missing hs (a :: as) hok 0 false none hmiss
      have hres : QueryMetricsV2 hs ⟨tf, tt, dbg, a :: as⟩
          = (.error 400 "Query missing data source ID", tr) := by
        simp [QueryMetricsV2, htr]
      rw [hres]
      exact ⟨rfl, hall⟩
  · intro h0
    simp [QueryMetrics, h0]

theorem C4_missing_id_witness :
    (QueryMetricsV2 hsOk ⟨"", "", false, [rq "" (some 1), rq "" none]⟩).1
      = .error 400 "Query missing data source ID"
    ∧ QueryMetrics hsOk ⟨"", "", false, [rq "" none]⟩
      = (.error 400 "Query missing datasourceId", []) := by
  have h := C4_missing_id hsOk "" "" false [rq "" (some 1), rq "" none] (rq "" none) []
    (fun id => ⟨⟨id⟩, rfl⟩)
  exact ⟨(h.1 ⟨rq "" none, by decide, rfl⟩).1, h.2 rfl⟩

/-- Claim C5 counterexample: a batch classified as an expression batch
because its SECOND sub-query names the sentinel. `QueryMetricsV2` has
already called the resolver (with the first sub-query's id) before it
sees the sentinel, so the dispatch layer does call `GetDatasource` while
handling this expression batch. -/
theorem C5_counterexample :
    (∃ q ∈ ([rq "" (some 1), rq DatasourceName (some 2)] : List RawQuery),
       q.datasource = DatasourceName)
    ∧ Call.getDatasource 1
        ∈ (QueryMetricsV2 hsOk
            ⟨"", "", false, [rq "" (some 1), rq DatasourceName (some 2)]⟩).2 := by
  constructor
  · exact ⟨rq DatasourceName (some 2), by decide, rfl⟩
  · decide

/-- Claim C5 (amended): `QueryMetricsV2` never calls the resolver when
the FIRST sub-query names the expression sentinel; when the first
sub-query does not name it (its id being present), the resolver is
called exactly once with the first sub-query's id — even if a later
sub-query names the sentinel and the batch is routed to the expression
path. -/
theorem C5_expression_resolution (hs : HTTPServer) (tf tt : String) (dbg : Bool)
    (q0 : RawQuery) (rest : List RawQuery) (i0 : Int) :
    (q0.datasource = DatasourceName →
       ∀ id, Call.getDatasource id ∉ (QueryMetricsV2 hs ⟨tf, tt, dbg, q0 :: rest⟩).2)
    ∧ (q0.datasource ≠ DatasourceName → q0.datasourceId = some i0 →
       ((QueryMetricsV2 hs ⟨tf, tt, dbg, q0 :: rest⟩).2).filter Call.isResolve
         = [.getDatasource i0]) := by
  constructor
  · intro h0 id
    have hloop := v2Loop_expr_first_no_gds hs q0 rest h0 id
    rcases QueryMetricsV2_trace_split hs tf tt dbg q0 rest with hsp | ⟨c, hc, hsp⟩
    · rw [hsp]; exact hloop
    · rw [hsp]
      intro hmem
      rcases List.mem_append.mp hmem with h1 | h1
      · exact hloop h1
      · rw [← List.mem_singleton.mp h1] at hc
        simp [Call.isResolve] at hc
  · intro h0 hid0
    exact QueryMetricsV2_resolve_once hs tf tt dbg q0 rest i0 h0 hid0

theorem C5_expression_resolution_witness :
    Call.getDatasource 5
      ∉ (QueryMetricsV2 hsOk ⟨"", "", false, [rq DatasourceName (some 5)]⟩).2
    ∧ ((QueryMetricsV2 hsOk
          ⟨"", "", false, [rq "" (some 1), rq DatasourceName (some 2)]⟩).2).filter
        Call.isResolve = [.getDatasource 1] :=
  ⟨(C5_expression_resolution hsOk "" "" false (rq DatasourceName (some 5)) [] 0).1 rfl 5,
   (C5_expression_resolution hsOk "" "" false (rq "" (some 1)) [rq DatasourceName (some 2)] 1).2
     (by decide) rfl⟩

/-- Claim C6: an expression batch (some sub-query names the sentinel)
reaching the routing point (all ids present, resolution — if attempted —
succeeding) while the expressions feature is disabled gets 404
"Expressions feature toggle is not enabled", and neither the time-series
executor nor the expression evaluator is invoked: the trace holds
resolver calls only. -/
theorem C6_expressions_disabled (hs : HTTPServer) (tf tt : String) (dbg : Bool)
    (q0 : RawQuery) (rest : List RawQuery)
    (hexpr : ∃ q ∈ q0 :: rest, q.datasource = DatasourceName)
    (hids : ∀ q ∈ q0 :: rest, (q.datasourceId).isSome)
    (hok : ∀ id, ∃ d, hs.getDatasource id = .ok d)
    (hdis : hs.exprEnabled = false) :
    (QueryMetricsV2 hs ⟨tf, tt, dbg, q0 :: rest⟩).1
      = .error 404 "Expressions feature toggle is not enabled"
    ∧ ∀ c ∈ (QueryMetricsV2 hs ⟨tf, tt, dbg, q0 :: rest⟩).2,
        ∃ id, c = .getDatasource id := by
  obtain ⟨ds, tr, ⟨qs, hdone⟩, hall⟩ := v2Loop_complete hs q0 rest hids hok
  rw [hasExprFold_of_mem _ _ hexpr] at hdone
  have hres : QueryMetricsV2 hs ⟨tf, tt, dbg, q0 :: rest⟩
      = (.error 404 "Expressions feature toggle is not enabled", tr) := by
    simp [QueryMetricsV2, hdone, hdis]
  rw [hres]
  exact ⟨rfl, hall⟩

theorem C6_expressions_disabled_witness :
    (QueryMetricsV2 hsNoExpr ⟨"", "", false, [rq DatasourceName (some 1)]⟩).1
      = .error 404 "Expressions feature toggle is not enabled" :=
  (C6_expressions_disabled hsNoExpr "" "" false (rq DatasourceName (some 1)) []
    ⟨rq DatasourceName (some 1), by decide, rfl⟩ (by decide)
    (fun id => ⟨⟨id⟩, rfl⟩) rfl).1

lemma v2Request_dataSource (tf tt : String) (dbg : Bool) (qs : List RawQuery)
    (ds : Option DataSource) :
    ∀ q ∈ (v2Request tf tt dbg qs ds).queries, q.dataSource = ds := by
  intro q hq
  simp only [v2Request] at hq
  obtain ⟨q', _, rfl⟩ := List.mem_map.mp hq
  rfl

lemma legacyRequest_dataSource (tf tt : String) (dbg : Bool) (qs : List RawQuery)
    (ds : Option DataSource) :
    ∀ q ∈ (legacyRequest tf tt dbg qs ds).queries, q.dataSource = ds := by
  intro q hq
  simp only [legacyRequest] at hq
  obtain ⟨q', _, rfl⟩ := List.mem_map.mp hq
  rfl

/-- Claim C3: on a direct batch (no sub-query names the sentinel, ids
present) both entry points resolve exactly once, with the FIRST
sub-query's id — the resolver calls of either trace are exactly that
single call, whatever the resolver and backend return — and when
resolution succeeds, every sub-query of any dispatched request carries
that single resolved data source. -/
theorem C3_single_resolution (hs : HTTPServer) (tf tt : String) (dbg : Bool)
    (q0 : RawQuery) (rest : List RawQuery) (i0 : Int)
    (hdirect : ∀ q ∈ q0 :: rest, q.datasource ≠ DatasourceName)
    (hids : ∀ q ∈ q0 :: rest, (q.datasourceId).isSome)
    (hid0 : q0.datasourceId = some i0) :
    ((QueryMetricsV2 hs ⟨tf, tt, dbg, q0 :: rest⟩).2).filter Call.isResolve
      = [.getDatasource i0]
    ∧ ((QueryMetrics hs ⟨tf, tt, dbg, q0 :: rest⟩).2).filter Call.isResolve
      = [.getDatasource i0]
    ∧ ∀ d, hs.getDatasource i0 = .ok d →
        (∀ r, Call.handleRequest r ∈ (QueryMetricsV2 hs ⟨tf, tt, dbg, q0 :: rest⟩).2 →
           ∀ q ∈ r.queries, q.dataSource = some d)
        ∧ (∀ r, Call.handleRequest r ∈ (QueryMetrics hs ⟨tf, tt, dbg, q0 :: rest⟩).2 →
           ∀ q ∈ r.queries, q.dataSource = some d) := by
  have h0 := hdirect q0 (List.mem_cons_self _ _)
  refine ⟨QueryMetricsV2_resolve_once hs tf tt dbg q0 rest i0 h0 hid0,
          QueryMetrics_resolve_once hs tf tt dbg q0 rest i0 hid0, ?_⟩
  intro d hd
  constructor
  · intro r hr q hq
    cases hh : hs.handleRequest (some d) (v2Request tf tt dbg (q0 :: rest) (some d)) with
    | error m =>
      rw [QueryMetricsV2_direct_err hs tf tt dbg q0 rest i0 d m hdirect hids hid0 hd hh] at hr
      simp only [List.mem_cons, List.mem_singleton, List.not_mem_nil, or_false] at hr
      rcases hr with h1 | h1
      · exact Call.noConfusion h1
      · injection h1 with h3
        subst h3
        exact v2Request_dataSource tf tt dbg (q0 :: rest) (some d) q hq
    | ok resp =>
      rw [QueryMetricsV2_direct_ok hs tf tt dbg q0 rest i0 d resp hdirect hids hid0 hd hh] at hr
      simp only [List.mem_cons, List.mem_singleton, List.not_mem_nil, or_false] at hr
      rcases hr with h1 | h1
      · exact Call.noConfusion h1
      · injection h1 with h3
        subst h3
        exact v2Request_dataSource tf tt dbg (q0 :: rest) (some d) q hq
  · intro r hr q hq
    cases hh : hs.handleRequest (some d) (legacyRequest tf tt dbg (q0 :: rest) (some d)) with
    | error m =>
      rw [QueryMetrics_err hs tf tt dbg q0 rest i0 d m hid0 hd hh] at hr
      simp only [List.mem_cons, List.mem_singleton, List.not_mem_nil, or_false] at hr
      rcases hr with h1 | h1
      · exact Call.noConfusion h1
      · injection h1 with h3
        subst h3
        exact legacyRequest_dataSource tf tt dbg (q0 :: rest) (some d) q hq
    | ok resp =>
      rw [QueryMetrics_ok hs tf tt dbg q0 rest i0 d resp hid0 hd hh] at hr
      simp only [List.mem_cons, List.mem_singleton, List.not_mem_nil, or_false] at hr
      rcases hr with h1 | h1
      · exact Call.noConfusion h1
      · injection h1 with h3
        subst h3
        exact legacyRequest_dataSource tf tt dbg (q0 :: rest) (some d) q hq

theorem C3_single_resolution_witness :
    ((QueryMetricsV2 hsOk ⟨"", "", false, [rq "" (some 1)]⟩).2).filter Call.isResolve
      = [.getDatasource 1]
    ∧ ((QueryMetrics hsOk ⟨"", "", false, [rq "" (some 1)]⟩).2).filter Call.isResolve
      = [.getDatasource 1] := by
  have h := C3_single_resolution hsOk "" "" false (rq "" (some 1)) [] 1
    (by decide) (by decide) rfl
  exact ⟨h.1, h.2.1⟩

lemma agg_status_iff (rs : List QueryResult) :
    ((if hasErr rs then 400 else 200 : Nat) = 200) ↔ ∀ r ∈ rs, r.error = none := by
  by_cases hE : hasErr rs = true
  · rw [if_pos hE]
    constructor
    · intro h; exact absurd h (by decide)
    · intro hall
      rw [(hasErr_false_iff rs).mpr hall] at hE
      cases hE
  · have hE' : hasErr rs = false := by
      revert hE; cases hasErr rs <;> simp
    rw [hE']
    simp only [Bool.false_eq_true, if_false, true_iff]
    exact (hasErr_false_iff rs).mp hE'

lemma agg_status_ne (rs : List QueryResult) :
    ((if hasErr rs then 400 else 200 : Nat) ≠ 200)
      → (if hasErr rs then 400 else 200 : Nat) = 400 := by
  by_cases hE : hasErr rs = true
  · intro _; rw [if_pos hE]
  · intro h
    have hE' : hasErr rs = false := by
      revert hE; cases hasErr rs <;> simp
    rw [hE'] at h
    simp at h

lemma aggregate_parts (resp : TsdbResponse) :
    (aggregate resp).1 = (if hasErr resp.results then 400 else 200)
    ∧ (aggregate resp).2
        = ⟨resp.results.map updError, (lastErrorMsg resp.results).getD resp.message⟩ := by
  rw [aggregate_eq]
  exact ⟨rfl, by simp [msgAfter_eq]⟩

/-- Claim C1: on a direct batch whose resolution and backend call
succeed, both entry points answer 200 exactly when no per-sub-query
result carries an error and 400 otherwise; the envelope is the
aggregation of the backend results: each erroring result's
error-message field is the stringified error (`updError`) and the
aggregate message is the message of the LAST erroring result in
iteration order (`lastErrorMsg`), the backend's own message when none
errors. -/
theorem C1_direct_aggregation (hs : HTTPServer) (tf tt : String) (dbg : Bool)
    (q0 : RawQuery) (rest : List RawQuery) (i0 : Int) (d : DataSource)
    (resp respL : TsdbResponse)
    (hdirect : ∀ q ∈ q0 :: rest, q.datasource ≠ DatasourceName)
    (hids : ∀ q ∈ q0 :: rest, (q.datasourceId).isSome)
    (hid0 : q0.datasourceId = some i0)
    (hres : hs.getDatasource i0 = .ok d)
    (hok : hs.handleRequest (some d) (v2Request tf tt dbg (q0 :: rest) (some d)) = .ok resp)
    (hokL : hs.handleRequest (some d) (legacyRequest tf tt dbg (q0 :: rest) (some d))
        = .ok respL) :
    ((QueryMetricsV2 hs ⟨tf, tt, dbg, q0 :: rest⟩).1.status = 200
       ↔ ∀ r ∈ resp.results, r.error = none)
    ∧ ((QueryMetricsV2 hs ⟨tf, tt, dbg, q0 :: rest⟩).1.status ≠ 200
       → (QueryMetricsV2 hs ⟨tf, tt, dbg, q0 :: rest⟩).1.status = 400)
    ∧ (QueryMetricsV2 hs ⟨tf, tt, dbg, q0 :: rest⟩).1
        = .jsonStreaming (if hasErr resp.results then 400 else 200)
            ⟨resp.results.map updError, (lastErrorMsg resp.results).getD resp.message⟩
    ∧ ((QueryMetrics hs ⟨tf, tt, dbg, q0 :: rest⟩).1.status = 200
       ↔ ∀ r ∈ respL.results, r.error = none)
    ∧ ((QueryMetrics hs ⟨tf, tt, dbg, q0 :: rest⟩).1.status ≠ 200
       → (QueryMetrics hs ⟨tf, tt, dbg, q0 :: rest⟩).1.status = 400)
    ∧ (QueryMetrics hs ⟨tf, tt, dbg, q0 :: rest⟩).1
        = .json (if hasErr respL.results then 400 else 200)
            ⟨respL.results.map updError, (lastErrorMsg respL.results).getD respL.message⟩ := by
  have hv2 := QueryMetricsV2_direct_ok hs tf tt dbg q0 rest i0 d resp hdirect hids hid0 hres hok
  have hL := QueryMetrics_ok hs tf tt dbg q0 rest i0 d respL hid0 hres hokL
  have h1 : (QueryMetricsV2 hs ⟨tf, tt, dbg, q0 :: rest⟩).1
      = .jsonStreaming (if hasErr resp.results then 400 else 200)
          ⟨resp.results.map updError, (lastErrorMsg resp.results).getD resp.message⟩ := by
    rw [hv2]
    rw [show (Prod.fst (α := Response) (β := List Call)
        (.jsonStreaming (aggregate resp).1 (aggregate resp).2,
         [.getDatasource i0, .handleRequest (v2Request tf tt dbg (q0 :: rest) (some d))]))
      = .jsonStreaming (aggregate resp).1 (aggregate resp).2 from rfl]
    rw [(aggregate_parts resp).1, (aggregate_parts resp).2]
  have h2 : (QueryMetrics hs ⟨tf, tt, dbg, q0 :: rest⟩).1
      = .json (if hasErr respL.results then 400 else 200)
          ⟨respL.results.map updError, (lastErrorMsg respL.results).getD respL.message⟩ := by
    rw [hL]
    rw [show (Prod.fst (α := Response) (β := List Call)
        (.json (aggregate respL).1 (aggregate respL).2,
         [.getDatasource i0, .handleRequest (legacyRequest tf tt dbg (q0 :: rest) (some d))]))
      = .json (aggregate respL).1 (aggregate respL).2 from rfl]
    rw [(aggregate_parts respL).1, (aggregate_parts respL).2]
  have hst1 : (QueryMetricsV2 hs ⟨tf, tt, dbg, q0 :: rest⟩).1.status
      = (if hasErr resp.results then 400 else 200) := by rw [h1]; rfl
  have hst2 : (QueryMetrics hs ⟨tf, tt, dbg, q0 :: rest⟩).1.status
      = (if hasErr respL.results then 400 else 200) := by rw [h2]; rfl
  refine ⟨?_, ?_, h1, ?_, ?_, h2⟩
  · rw [hst1]; exact agg_status_iff resp.results
  · rw [hst1]; exact agg_status_ne resp.results
  · rw [hst2]; exact agg_status_iff respL.results
  · rw [hst2]; exact agg_status_ne respL.results

theorem C1_direct_aggregation_witness :
    (QueryMetricsV2 hsAgg ⟨"", "", false, [rq "" (some 1)]⟩).1
      = .jsonStreaming (if hasErr wresp.results then 400 else 200)
          ⟨wresp.results.map updError, (lastErrorMsg wresp.results).getD wresp.message⟩
    ∧ (QueryMetrics hsAgg ⟨"", "", false, [rq "" (some 1)]⟩).1.status = 400 := by
  have h := C1_direct_aggregation hsAgg "" "" false (rq "" (some 1)) [] 1 ⟨1⟩ wresp wresp
    (by decide) (by decide) rfl rfl rfl rfl
  exact ⟨h.2.2.1, h.2.2.2.2.1 (by decide)⟩

/-- Claim C8: legacy `QueryMetrics` is oblivious to expressions: its
outcome ignores the expression evaluator and the feature toggle, its
status is never 404, it never invokes the expression evaluator, and the
shape of its collaborator trace is unchanged when every sub-query's
declared data-source name is rewritten arbitrarily — it always
dispatches down the direct path keyed on the first sub-query's id. -/
theorem C8_legacy_never_expression (g : Int → Except DsError DataSource)
    (h : Option DataSource → TsdbQuery → Except String TsdbResponse)
    (w w' : TsdbQuery → Except String TsdbResponse) (b b' : Bool)
    (req : MetricRequest) (f : String → String) (tq : TsdbQuery) :
    QueryMetrics ⟨g, h, w, b⟩ req = QueryMetrics ⟨g, h, w', b'⟩ req
    ∧ (QueryMetrics ⟨g, h, w, b⟩ req).1.status ≠ 404
    ∧ Call.wrapTransformData tq ∉ (QueryMetrics ⟨g, h, w, b⟩ req).2
    ∧ ((QueryMetrics ⟨g, h, w, b⟩ (mapNames f req)).2).map Call.kind
        = ((QueryMetrics ⟨g, h, w, b⟩ req).2).map Call.kind := by
  refine ⟨rfl, ?_, QueryMetrics_no_wrap _ req tq, ?_⟩
  · intro h404
    have hmem := QueryMetrics_status_mem ⟨g, h, w, b⟩ req
    rw [h404] at hmem
    simp at hmem
  · rw [QueryMetrics_kinds, QueryMetrics_kinds]
    cases hq : req.queries with
    | nil => simp [mapNames, hq]
    | cons q0 rest => simp [mapNames, hq]

end Grafana
